import Mathlib

/-!
Verification of the uvm-python synchronization and phasing core against its
natural-language specification.

The Lean definitions below are shallow embeddings of the Python source:

* `src/uvm/base/uvm_event.py`   — `UVMEventBase` / `UVMEvent`
* `src/uvm/base/sv.py`          — `semaphore`
* `src/uvm/base/uvm_pool.py`    — `UVMPool` / `UVMObjectStringPool`
* `src/uvm/dap/uvm_simple_lock_dap.py` — `uvm_simple_lock_dap`
* `src/uvm/base/uvm_topdown_phase.py`  — `UVMTopdownPhase.traverse`

Blocking primitives come from cocotb, which the code uses directly:

* `cocotb.triggers.Event`: `set(data)` marks the event `fired` and wakes every
  coroutine pending on `wait()`; `wait()` completes immediately (within the
  same time step) when `fired` is already true, otherwise it suspends until
  the next `set`; `clear()` resets `fired`.  `fired` persists across time
  steps until `clear` is called.
* `cocotb.triggers.Lock`: `acquire()` suspends while the lock is held,
  `release()` frees it.

The embedding models an event's cocotb `m_event` by its `fired` flag and a
blocking call by an explicit outcome (`immediate` vs `blocked`).  Python
dynamic values that the code mixes (`bool` + `int`, `is False`) are modelled
by `PyVal` with Python's coercion and identity semantics.
-/

/-- A Python value that is either a `bool` or an `int`.  Needed because
`UVMEvent.trigger` computes `skip = skip + tmp.pre_trigger(...)`: in Python,
`bool + bool` produces an `int`, and the subsequent test `skip is False` is an
identity test that an `int` (even `0`) never passes. -/
inductive PyVal : Type where
  | bool (b : Bool)
  | int (n : Int)
deriving DecidableEq

/-- Python `+` on `bool`/`int` operands: `bool` coerces to `int` (`False` = 0,
`True` = 1) and the result of any mixed or bool-bool addition is an `int`. -/
def pyAdd : PyVal → PyVal → PyVal
  | .bool a, .bool b => .int ((if a then 1 else 0) + (if b then 1 else 0))
  | .bool a, .int n => .int ((if a then 1 else 0) + n)
  | .int n, .bool b => .int (n + (if b then 1 else 0))
  | .int m, .int n => .int (m + n)

/-- Python `x is False`: true only for the `bool` object `False`.  The `int`
`0` is a different object, so `0 is False` is `False` in Python. -/
def pyIsFalse : PyVal → Bool
  | .bool b => !b
  | .int _ => false

/-- A callback registered on a `UVMEvent` (`uvm_event_callback`).  Only the
value returned by `pre_trigger` matters to `trigger`'s control flow; the model
records it.  `post_trigger` returns nothing. -/
structure EventCallback : Type where
  preRet : PyVal
deriving DecidableEq

/-- State of a `UVMEvent` (fields of `UVMEventBase.__init__` plus
`UVMEvent.trigger_data`).  `fired` is the `fired` flag of the cocotb `Event`
stored in `self.m_event`.  Payload data is modelled as `Nat` (the Python code
is untyped; the `T` parameter of `UVMEvent` is never used). -/
structure UVMEventState : Type where
  fired : Bool
  «on» : Bool
  num_waiters : Nat
  trigger_time : Nat
  trigger_data : Option Nat
  callbacks : List EventCallback
deriving DecidableEq

/-- A freshly constructed `UVMEvent` with no callbacks
(`UVMEventBase.__init__`): `m_event = Event()` (not fired), `on = False`,
`num_waiters = 0`, `trigger_time = 0`, `trigger_data = None`. -/
def mkUVMEvent : UVMEventState :=
  { fired := false, «on» := false, num_waiters := 0, trigger_time := 0
    trigger_data := none, callbacks := [] }

/-- `UVMEvent.trigger(data)` (uvm_event.py lines 346-373), embedded exactly as
written.  `t` is the value `sv.realtime()` returns at the call.  Returns the
new state together with the list of callback indices whose `pre_trigger`
method was invoked and the list of indices whose `post_trigger` was invoked.

The Python source reads:

    skip = False
    if self.callbacks.size() > 0:
        for i in range(0, self.callbacks.size()):
            tmp = self.callbacks.get(i)
        skip = skip + tmp.pre_trigger(self, data)
    if skip is False:
        self.m_event.set(data)
        ... post_trigger loop, num_waiters = 0, on = True, times, data ...

Note the indentation: the statement `skip = skip + tmp.pre_trigger(self, data)`
sits outside the `for` loop, so the loop merely leaves `tmp` bound to the last
callback and `pre_trigger` runs once, on that last callback.  `skip` then
becomes a Python `int` (`bool + bool`), so the identity test `skip is False`
fails and the whole trigger body is skipped. -/
def trigger (t : Nat) (data : Option Nat) (s : UVMEventState) :
    UVMEventState × List Nat × List Nat :=
  match s.callbacks.getLast? with
  | some cb =>
      -- callbacks.size() > 0: the for loop leaves tmp = callbacks[size-1];
      -- pre_trigger runs once, on that callback only.
      let skip := pyAdd (.bool false) cb.preRet
      let preCalls := [s.callbacks.length - 1]
      if pyIsFalse skip then
        ({ s with
            fired := true, num_waiters := 0, «on» := true,
            trigger_time := t, trigger_data := data },
         preCalls, List.range s.callbacks.length)
      else
        (s, preCalls, [])
  | none =>
      -- callbacks.size() == 0: skip is still the bool False, so the body runs:
      -- m_event.set(data); no post loop; num_waiters = 0; on = True;
      -- trigger_time = sv.realtime(); trigger_data = data.
      ({ s with
          fired := true, num_waiters := 0, «on» := true,
          trigger_time := t, trigger_data := data },
       [], [])

/-- Outcome of an awaited call: it either completes within the current time
step or suspends until some future wake-up. -/
inductive WaitOutcome : Type where
  | immediate (s : UVMEventState)
  | blocked (s : UVMEventState)
deriving DecidableEq

/-- `UVMEventBase.wait_trigger` (uvm_event.py lines 140-155):
`num_waiters += 1; await m_event.wait(); m_event.clear()`.  Per cocotb,
`m_event.wait()` completes immediately when `m_event.fired` is already true;
otherwise the caller suspends until the next `m_event.set`. -/
def wait_trigger (s : UVMEventState) : WaitOutcome :=
  let s1 := { s with num_waiters := s.num_waiters + 1 }
  if s1.fired then .immediate { s1 with fired := false }
  else .blocked s1

/-- `UVMEventBase.wait_ptrigger` (uvm_event.py lines 158-171): returns at once
when `m_event.fired` (no waiter-count increment, no clear); otherwise
increments `num_waiters` and suspends on `m_event.wait()`. -/
def wait_ptrigger (s : UVMEventState) : WaitOutcome :=
  if s.fired then .immediate s
  else
    let s1 := { s with num_waiters := s.num_waiters + 1 }
    .blocked s1

/-- `UVMEventBase.reset(wakeup)` (uvm_event.py lines 210-226): optionally wakes
pending waiters via `m_event.set()`, then replaces `m_event` with a fresh
`Event()` (so `fired` is false), zeroes `num_waiters`, sets `on = False` via
`set_value`, and zeroes `trigger_time`.  It never touches `trigger_data` and
runs no callbacks. -/
def reset (wakeup : Bool) (s : UVMEventState) : UVMEventState :=
  -- when `wakeup` is true the pending waiters are woken first; the retained
  -- state afterwards is identical in both cases.
  { s with fired := false, num_waiters := 0, «on» := false, trigger_time := 0 }

/-- `UVMEventBase.is_on` (uvm_event.py line 188). -/
def is_on (s : UVMEventState) : Bool :=
  s.«on»

/-- `UVMEvent.get_trigger_data` (uvm_event.py lines 376-383). -/
def get_trigger_data (s : UVMEventState) : Option Nat :=
  s.trigger_data

/-- A `UVMEvent` with two registered callbacks, both of whose `pre_trigger`
returns the Python bool `False` (no veto). -/
def evTwoCallbacks : UVMEventState :=
  { fired := false, «on» := false, num_waiters := 0, trigger_time := 0
    trigger_data := none
    callbacks := [{ preRet := .bool false }, { preRet := .bool false }] }

/-- Claim C1: with a non-empty callback list, `trigger(data)` is claimed to run
`pre_trigger` on every registered callback in registration order and, absent a
veto, to wake waiters, latch `on`, record payload and timestamp, run every
`post_trigger`, and zero the waiter count.  The code does not do this: on an
event with two non-vetoing callbacks, `pre_trigger` runs only on the last
callback (index 1), and the entire trigger body is skipped — the state is
returned unchanged (`on` stays false, no payload, no timestamp, no
`post_trigger`, waiters untouched) because `skip` has become the int `0` and
`0 is False` is false in Python. -/
theorem trigger_with_callbacks_skips_body :
    trigger 5 (some 42) evTwoCallbacks = (evTwoCallbacks, [1], []) ∧
    is_on (trigger 5 (some 42) evTwoCallbacks).1 = false ∧
    get_trigger_data (trigger 5 (some 42) evTwoCallbacks).1 = none := by
  refine ⟨?_, ?_, ?_⟩ <;> rfl

/-- Claim C2: the spec (and `wait_trigger`'s own docstring) say a trigger with
no waiter is lost, so a `wait_trigger` issued strictly after it blocks until
the next trigger.  The code disagrees: the cocotb `Event.fired` flag set by
`trigger` persists until some waiter clears it, so a later `wait_trigger`
completes immediately within its own time step instead of blocking. -/
theorem wait_trigger_after_lone_trigger_returns_immediately :
    wait_trigger (trigger 3 none mkUVMEvent).1 =
      WaitOutcome.immediate
        { fired := false, «on» := true, num_waiters := 1, trigger_time := 3
          trigger_data := none, callbacks := [] } := by
  rfl

/-- Claim C7: `wait_ptrigger` called at or after an (effective) `trigger`
returns immediately, without blocking and without incrementing `num_waiters`:
with no callbacks registered the trigger body runs and leaves `m_event.fired`
true, and `wait_ptrigger` then returns before touching the waiter count. -/
theorem wait_ptrigger_after_trigger_immediate
    (s : UVMEventState) (t : Nat) (d : Option Nat)
    (hcb : s.callbacks = []) :
    wait_ptrigger (trigger t d s).1 = .immediate (trigger t d s).1 ∧
    (trigger t d s).1.num_waiters = 0 := by
  have hlast : s.callbacks.getLast? = none := by rw [hcb]; rfl
  constructor
  · unfold wait_ptrigger trigger
    rw [hlast]
    rfl
  · unfold trigger
    rw [hlast]

/-- Witness for `wait_ptrigger_after_trigger_immediate` on a concrete fresh
event. -/
theorem wait_ptrigger_after_trigger_immediate_witness :
    wait_ptrigger (trigger 7 (some 1) mkUVMEvent).1 =
      .immediate (trigger 7 (some 1) mkUVMEvent).1 ∧
    (trigger 7 (some 1) mkUVMEvent).1.num_waiters = 0 :=
  wait_ptrigger_after_trigger_immediate mkUVMEvent 7 (some 1) rfl

/-- Claim C9: after a trigger recorded payload `d`, `reset(wakeup)` clears the
latch (`is_on` is false), zeroes the waiter count and the trigger time, but
leaves the payload in place: `get_trigger_data` still returns `d`. -/
theorem reset_preserves_trigger_data
    (s : UVMEventState) (w : Bool) (t : Nat) (d : Option Nat)
    (hcb : s.callbacks = []) :
    is_on (reset w (trigger t d s).1) = false ∧
    (reset w (trigger t d s).1).num_waiters = 0 ∧
    (reset w (trigger t d s).1).trigger_time = 0 ∧
    get_trigger_data (reset w (trigger t d s).1) = d := by
  have hlast : s.callbacks.getLast? = none := by rw [hcb]; rfl
  unfold trigger
  rw [hlast]
  exact ⟨rfl, rfl, rfl, rfl⟩

/-- Witness for `reset_preserves_trigger_data` on a concrete fresh event. -/
theorem reset_preserves_trigger_data_witness :
    is_on (reset true (trigger 9 (some 42) mkUVMEvent).1) = false ∧
    (reset true (trigger 9 (some 42) mkUVMEvent).1).num_waiters = 0 ∧
    (reset true (trigger 9 (some 42) mkUVMEvent).1).trigger_time = 0 ∧
    get_trigger_data (reset true (trigger 9 (some 42) mkUVMEvent).1) = some 42 :=
  reset_preserves_trigger_data mkUVMEvent true 9 (some 42) rfl

/-!
## Semaphore (`src/uvm/base/sv.py`, class `semaphore`, lines 318-350)

`count` and `max_count` are Python ints, so the model uses `Int` (nothing in
the code keeps the count non-negative).  The cocotb `Lock` the class owns is
modelled by `lockHeld`; `self.locked` is the separate bookkeeping flag the
class maintains.  A sequence of operations issued by one task is modelled by
`semRun`; an operation that suspends (`await self.lock.acquire()` while the
lock is held) can never resume in a single-task run, which is all the claims
need.
-/

/-- State of `sv.semaphore`: `max_count` and `count` as set by `__init__`,
the cocotb `Lock` (`lockHeld`) and the `locked` flag. -/
structure Semaphore : Type where
  max_count : Int
  count : Int
  lockHeld : Bool
  locked : Bool
deriving DecidableEq

/-- `semaphore(count)`: capacity and available count both start at `count`,
the lock is free. -/
def mkSemaphore (c : Int) : Semaphore :=
  { max_count := c, count := c, lockHeld := false, locked := false }

/-- Result of one semaphore operation issued by a single task:
`ok` — the call returned (any `Timer(0)` delay elapsed); `err` — the call
raised `Exception` leaving the state as given; `blockedOn` — the call
suspended on `self.lock.acquire()` with the state at the suspension point. -/
inductive SemResult : Type where
  | ok (s : Semaphore)
  | err (s : Semaphore)
  | blockedOn (s : Semaphore)
deriving DecidableEq

/-- `semaphore.get(count)` (sv.py lines 327-337), embedded exactly:

    if self.count > count:          # note: strict >
        self.count -= count
        await Timer(0, "NS")
    elif count > self.max_count:
        raise Exception(...)
    else:
        await self.lock.acquire()
        self.locked = True
        self.count -= count
-/
def semGet (n : Int) (s : Semaphore) : SemResult :=
  if s.count > n then .ok { s with count := s.count - n }
  else if n > s.max_count then .err s
  else if s.lockHeld then .blockedOn s
  else .ok { s with lockHeld := true, locked := true, count := s.count - n }

/-- `semaphore.put(count)` (sv.py lines 339-344):

    if self.count < self.max_count:
        self.count += count
        if self.locked is True:
            self.locked = False
            self.lock.release()

Note that the guard only checks `count < max_count` before adding the full
`count` argument, so the sum may exceed `max_count`. -/
def semPut (n : Int) (s : Semaphore) : Semaphore :=
  if s.count < s.max_count then
    let s1 := { s with count := s.count + n }
    if s1.locked then { s1 with locked := false, lockHeld := false }
    else s1
  else s

/-- `semaphore.try_get(count)` (sv.py lines 346-350): non-blocking; deducts
and returns `True` when `count >= n`, else returns `False`. -/
def semTryGet (n : Int) (s : Semaphore) : Bool × Semaphore :=
  if s.count ≥ n then (true, { s with count := s.count - n })
  else (false, s)

/-- One operation a task can issue on a semaphore. -/
inductive SemOp : Type where
  | get (n : Int)
  | put (n : Int)
  | tryGet (n : Int)
deriving DecidableEq

/-- Run a sequence of semaphore operations issued sequentially by a single
task starting from state `s`.  `none` means the sequence did not complete: a
`get` suspended on the lock (and nothing can release it) or raised. -/
def semRun : List SemOp → Semaphore → Option Semaphore
  | [], s => some s
  | op :: rest, s =>
      match op with
      | .get n =>
          match semGet n s with
          | .ok s' => semRun rest s'
          | .err _ => none
          | .blockedOn _ => none
      | .put n => semRun rest (semPut n s)
      | .tryGet n => semRun rest (semTryGet n s).2

/-- Claim C3: the spec's invariant `0 ≤ available ≤ capacity` does not hold on
the code.  From a fresh semaphore of capacity 2, the completed sequence
`get(2); put(1); get(2)` drives the available count to `-1` (the final `get`
finds the lock free and deducts below zero), and the completed sequence
`get(1); put(5)` drives it to `6 > 2` (`put` only checks that the count is
below capacity before adding the full amount). -/
theorem semaphore_count_leaves_bounds :
    semRun [.get 2, .put 1, .get 2] (mkSemaphore 2) =
      some { max_count := 2, count := -1, lockHeld := true, locked := true } ∧
    semRun [.get 1, .put 5] (mkSemaphore 2) =
      some { max_count := 2, count := 6, lockHeld := false, locked := false } := by
  exact ⟨by decide, by decide⟩

/-- Counterexample to claim C4 as stated: not *every* semaphore of capacity
`c` rejects `get(n)` for `n > c`.  The state with `count = 6` reached from a
fresh capacity-2 semaphore by `get(1); put(5)` accepts `get(3)` (3 > 2 =
capacity) without any error: the first branch `self.count > count` fires and
simply deducts. -/
theorem semaphore_get_over_capacity_counterexample :
    semRun [.get 1, .put 5] (mkSemaphore 2) =
      some { max_count := 2, count := 6, lockHeld := false, locked := false } ∧
    semGet 3 { max_count := 2, count := 6, lockHeld := false, locked := false } =
      .ok { max_count := 2, count := 3, lockHeld := false, locked := false } := by
  exact ⟨by decide, by decide⟩

/-- Claim C4 (amended): for every semaphore whose available count is at most
its capacity — in particular any semaphore the buggy over-filling `put` has
not pushed past capacity — `get(n)` with `n > capacity` raises immediately:
it does not block on the lock and leaves the state (including the available
count) unchanged. -/
theorem semaphore_get_over_capacity_errs
    (s : Semaphore) (n : Int)
    (hinv : s.count ≤ s.max_count) (hn : n > s.max_count) :
    semGet n s = .err s := by
  unfold semGet
  have h1 : ¬(s.count > n) := by omega
  rw [if_neg h1, if_pos hn]

/-- Witness for `semaphore_get_over_capacity_errs`: fresh capacity-2
semaphore, `get(3)`. -/
theorem semaphore_get_over_capacity_errs_witness :
    semGet 3 (mkSemaphore 2) = .err (mkSemaphore 2) :=
  semaphore_get_over_capacity_errs (mkSemaphore 2) 3 (by decide) (by decide)

/-!
## Simple-lock DAP (`src/uvm/dap/uvm_simple_lock_dap.py`)

The held value is any type `V`; `errors` counts `uvm_error` reports emitted
by rejected `set` calls.
-/

/-- State of a `uvm_simple_lock_dap`: `m_locked` and `m_value` as in
`__init__`, plus the number of `uvm_error` reports issued so far. -/
structure SimpleLockDap (V : Type) : Type where
  m_locked : Bool
  m_value : Option V
  errors : Nat

/-- `uvm_simple_lock_dap.__init__`: unlocked, no value, no errors. -/
def mkSimpleLockDap (V : Type) : SimpleLockDap V :=
  { m_locked := false, m_value := none, errors := 0 }

/-- `uvm_simple_lock_dap.set(value)` (lines 62-66): when locked, report a
`uvm_error` and leave the value alone; otherwise store the value. -/
def dapSet {V : Type} (v : V) (s : SimpleLockDap V) : SimpleLockDap V :=
  if s.m_locked then { s with errors := s.errors + 1 }
  else { s with m_value := some v }

/-- `uvm_simple_lock_dap.get` (lines 88-89). -/
def dapGet {V : Type} (s : SimpleLockDap V) : Option V :=
  s.m_value

/-- `uvm_simple_lock_dap.lock` (lines 107-108). -/
def dapLock {V : Type} (s : SimpleLockDap V) : SimpleLockDap V :=
  { s with m_locked := true }

/-- `uvm_simple_lock_dap.unlock` (lines 113-114). -/
def dapUnlock {V : Type} (s : SimpleLockDap V) : SimpleLockDap V :=
  { s with m_locked := false }

/-- `uvm_simple_lock_dap.is_locked` (lines 123-124). -/
def dapIsLocked {V : Type} (s : SimpleLockDap V) : Bool :=
  s.m_locked

/-- Claim C5: once `lock()` has been called, `set(v)` is rejected with a
reported error and the stored value is untouched (`get` still answers the
pre-lock value, and the DAP stays locked so every further `set` is rejected
the same way); `get` and `is_locked` are pure queries legal at any time; and
after `unlock()` a `set(w)` succeeds again and is visible through `get`. -/
theorem uvm_simple_lock_dap_lock_protocol
    {V : Type} (s : SimpleLockDap V) (v w : V) :
    dapSet v (dapLock s) = { dapLock s with errors := s.errors + 1 } ∧
    dapGet (dapSet v (dapLock s)) = dapGet s ∧
    dapIsLocked (dapSet v (dapLock s)) = true ∧
    dapIsLocked (dapLock s) = true ∧
    dapGet (dapLock s) = dapGet s ∧
    dapGet (dapSet w (dapUnlock (dapSet v (dapLock s)))) = some w ∧
    dapIsLocked (dapUnlock (dapSet v (dapLock s))) = false := by
  refine ⟨?_, ?_, ?_, ?_, ?_, ?_, ?_⟩ <;>
    simp [dapSet, dapLock, dapUnlock, dapGet, dapIsLocked]

/-!
## String-keyed object pool (`src/uvm/base/uvm_pool.py`, `UVMObjectStringPool`)

The pool's backing store is a Python `OrderedDict` mapping string keys to
objects produced by the pool's `Constructor`.  Object identity matters to the
claims, so constructed objects are modelled by the order in which the
constructor allocated them: the pool maps each key to the allocation number of
its object, and `nextId` is the number the next construction will receive.
Two objects are the same Python object exactly when their allocation numbers
are equal.
-/

/-- State of a `UVMObjectStringPool`: the `OrderedDict` contents (key,
allocation number of the stored object) in insertion order, and the next
fresh allocation number. -/
structure ObjectStringPool : Type where
  pool : List (String × Nat)
  nextId : Nat
deriving DecidableEq

/-- A freshly created pool (`UVMObjectStringPool.__init__`): empty dict. -/
def mkObjectStringPool : ObjectStringPool :=
  { pool := [], nextId := 0 }

/-- Python dict lookup `self.pool[key]` / membership `key in self.pool`
(first, and in an `OrderedDict` only, binding for `key`). -/
def plookup (k : String) : List (String × Nat) → Option Nat
  | [] => none
  | (k', v) :: rest => if k = k' then some v else plookup k rest

/-- `UVMObjectStringPool.get(key)` (uvm_pool.py lines 295-312):

    if key not in self.pool:
        self.pool[key] = self.Constructor(key)
    return self.pool[key]

Returns the (identity of the) returned object and the updated pool; a miss
constructs a fresh object and stores it under `key`. -/
def poolGet (k : String) (s : ObjectStringPool) : Nat × ObjectStringPool :=
  match plookup k s.pool with
  | some i => (i, s)
  | none =>
      (s.nextId,
       { pool := s.pool ++ [(k, s.nextId)], nextId := s.nextId + 1 })

/-- `UVMPool.exists(key)` (uvm_pool.py lines 118-119), inherited by
`UVMObjectStringPool`. -/
def poolExists (k : String) (s : ObjectStringPool) : Bool :=
  (plookup k s.pool).isSome

/-- `UVMObjectStringPool.delete(key)` (uvm_pool.py lines 314-327), embedded
with explicit fuel because the method is not terminating on present keys:

    def delete(self, key):
        if not self.exists(key):
            uvm_warning("POOLDEL", "delete: key ... doesn't exist")
            return
        self.delete(key)

The `self.delete(key)` call dispatches back to this very method (it shadows
`UVMPool.delete`), with the pool unchanged.  The result is the final pool
paired with `true` when a warning was reported; `none` means the recursion
has still not returned after `fuel` unfoldings. -/
def poolDelete : Nat → ObjectStringPool → String → Option (ObjectStringPool × Bool)
  | 0, _, _ => none
  | fuel + 1, s, k =>
      if poolExists k s = false then some (s, true)
      else poolDelete fuel s k

/-- Well-formedness of a pool reachable through `get`-driven construction:
every stored object was allocated before `nextId`, and no two entries store
the same object (each miss stores a brand-new `Constructor(key)` result). -/
def PoolWf (s : ObjectStringPool) : Prop :=
  (∀ e ∈ s.pool, e.2 < s.nextId) ∧ (s.pool.map Prod.snd).Nodup

/-- The fresh pool is well-formed. -/
theorem poolWf_mk : PoolWf mkObjectStringPool := by
  constructor
  · intro e he
    simp [mkObjectStringPool] at he
  · simp [mkObjectStringPool]

/-- `get` preserves pool well-formedness. -/
theorem poolWf_get (s : ObjectStringPool) (k : String) (h : PoolWf s) :
    PoolWf (poolGet k s).2 := by
  unfold poolGet
  obtain ⟨hlt, hnd⟩ := h
  cases hpl : plookup k s.pool with
  | some i => exact ⟨hlt, hnd⟩
  | none =>
      refine ⟨?_, ?_⟩
      · intro e he
        simp only [List.mem_append, List.mem_singleton] at he
        cases he with
        | inl h1 => exact Nat.lt_succ_of_lt (hlt e h1)
        | inr h2 => simp [h2]
      · simp only [List.map_append]
        rw [List.nodup_append]
        refine ⟨hnd, by simp, ?_⟩
        intro a ha hb
        simp only [List.map_cons, List.map_nil, List.mem_singleton] at hb
        subst hb
        obtain ⟨p, hp, hps⟩ := List.mem_map.1 ha
        have := hlt p hp
        omega

/-- A successful `plookup` comes from an entry of the list. -/
theorem plookup_mem {k : String} {l : List (String × Nat)} {v : Nat}
    (h : plookup k l = some v) : (k, v) ∈ l := by
  induction l with
  | nil => simp [plookup] at h
  | cons e rest ih =>
      obtain ⟨k', v'⟩ := e
      unfold plookup at h
      by_cases hk : k = k'
      · rw [if_pos hk] at h
        cases h
        subst hk
        exact List.mem_cons_self _ _
      · rw [if_neg hk] at h
        exact List.mem_cons_of_mem _ (ih h)

/-- Appending an entry for a different key does not change a lookup. -/
theorem plookup_append_ne {k k' : String} {l : List (String × Nat)} {v : Nat}
    (h : k ≠ k') : plookup k (l ++ [(k', v)]) = plookup k l := by
  induction l with
  | nil => simp [plookup, h]
  | cons e rest ih =>
      obtain ⟨k1, v1⟩ := e
      by_cases hk : k = k1 <;> simp [plookup, hk, ih]

/-- Appending an entry for a key absent from the list makes lookups of that
key find it. -/
theorem plookup_append_self {k : String} {l : List (String × Nat)} {v : Nat}
    (h : plookup k l = none) : plookup k (l ++ [(k, v)]) = some v := by
  induction l with
  | nil => simp [plookup]
  | cons e rest ih =>
      obtain ⟨k1, v1⟩ := e
      by_cases hk : k = k1
      · exfalso
        subst hk
        simp [plookup] at h
      · simp only [plookup, if_neg hk] at h
        simp only [List.cons_append, plookup, if_neg hk]
        exact ih h

/-- In a list whose stored values are pairwise distinct, two entries with the
same value have the same key. -/
theorem nodup_snd_inj {l : List (String × Nat)} (hnd : (l.map Prod.snd).Nodup)
    {a b : String} {v : Nat} (ha : (a, v) ∈ l) (hb : (b, v) ∈ l) : a = b := by
  induction l with
  | nil => simp at ha
  | cons e rest ih =>
      obtain ⟨k1, v1⟩ := e
      simp only [List.map_cons, List.nodup_cons] at hnd
      obtain ⟨hne, hnd'⟩ := hnd
      rcases List.mem_cons.1 ha with h1 | h1
      · rcases List.mem_cons.1 hb with h2 | h2
        · injection h1 with ha1 ha2
          injection h2 with hb1 hb2
          rw [ha1, hb1]
        · exfalso
          apply hne
          injection h1 with ha1 ha2
          subst ha2
          exact List.mem_map.2 ⟨(b, v), h2, rfl⟩
      · rcases List.mem_cons.1 hb with h2 | h2
        · exfalso
          apply hne
          injection h2 with hb1 hb2
          subst hb2
          exact List.mem_map.2 ⟨(a, v), h1, rfl⟩
        · exact ih hnd' h1 h2

/-- Claim C6: on a well-formed registry, `get(k)` twice hands back the very
same instance (the first call constructs and stores on a miss, the second
returns the stored object), and `get` on a different key — issued next, on
the updated pool — hands back a different instance. -/
theorem pool_get_idempotent_and_injective
    (s : ObjectStringPool) (k1 k2 : String)
    (hwf : PoolWf s) (hne : k1 ≠ k2) :
    (poolGet k1 (poolGet k1 s).2).1 = (poolGet k1 s).1 ∧
    (poolGet k2 (poolGet k1 s).2).1 ≠ (poolGet k1 s).1 := by
  obtain ⟨hlt, hnd⟩ := hwf
  cases h1 : plookup k1 s.pool with
  | some i =>
      have hs1 : poolGet k1 s = (i, s) := by unfold poolGet; rw [h1]
      rw [hs1]
      constructor
      · rw [hs1]
      · cases h2 : plookup k2 s.pool with
        | some j =>
            have : poolGet k2 s = (j, s) := by unfold poolGet; rw [h2]
            rw [this]
            intro hij
            subst hij
            exact hne (nodup_snd_inj hnd (plookup_mem h1) (plookup_mem h2))
        | none =>
            have : poolGet k2 s =
                (s.nextId,
                 { pool := s.pool ++ [(k2, s.nextId)], nextId := s.nextId + 1 }) := by
              unfold poolGet; rw [h2]
            rw [this]
            have := hlt _ (plookup_mem h1)
            simp only at this ⊢
            omega
  | none =>
      have hs1 : poolGet k1 s =
          (s.nextId,
           { pool := s.pool ++ [(k1, s.nextId)], nextId := s.nextId + 1 }) := by
        unfold poolGet; rw [h1]
      rw [hs1]
      constructor
      · have hl : plookup k1 (s.pool ++ [(k1, s.nextId)]) = some s.nextId :=
          plookup_append_self h1
        unfold poolGet
        simp only
        rw [hl]
      · have hl2 : plookup k2 (s.pool ++ [(k1, s.nextId)]) = plookup k2 s.pool :=
          plookup_append_ne (Ne.symm hne)
        unfold poolGet
        simp only
        rw [hl2]
        cases h2 : plookup k2 s.pool with
        | some j =>
            have := hlt _ (plookup_mem h2)
            simp only
            omega
        | none => simp

/-- Witness for `pool_get_idempotent_and_injective`: fresh pool, keys "a" and
"b". -/
theorem pool_get_idempotent_and_injective_witness :
    (poolGet "a" (poolGet "a" mkObjectStringPool).2).1 =
      (poolGet "a" mkObjectStringPool).1 ∧
    (poolGet "b" (poolGet "a" mkObjectStringPool).2).1 ≠
      (poolGet "a" mkObjectStringPool).1 :=
  pool_get_idempotent_and_injective mkObjectStringPool "a" "b" poolWf_mk
    (by decide)

/-- Claim C10: `UVMObjectStringPool.delete(key)` terminates only when the key
is absent — it then reports the "POOLDEL" warning and leaves the pool
untouched — while for a present key every unfolding calls `delete` again with
the same key on the same pool, so the call never returns and the key is never
removed. -/
theorem pool_delete_diverges_on_present_key (s : ObjectStringPool) (k : String) :
    (poolExists k s = true → ∀ fuel, poolDelete fuel s k = none) ∧
    (poolExists k s = false → ∀ fuel, poolDelete (fuel + 1) s k = some (s, true)) ∧
    (poolExists k s = true → ∀ fuel, poolDelete (fuel + 1) s k = poolDelete fuel s k) := by
  refine ⟨?_, ?_, ?_⟩
  · intro hex fuel
    induction fuel with
    | zero => rfl
    | succ n ih =>
        unfold poolDelete
        rw [hex]
        simp only [Bool.true_eq_false, if_false]
        exact ih
  · intro hex fuel
    unfold poolDelete
    rw [hex]
    simp
  · intro hex fuel
    simp [poolDelete, hex]

/-- Witness for `pool_delete_diverges_on_present_key`: a pool holding key
"a"; deleting "a" makes no progress for any amount of fuel, deleting the
absent "b" returns at once with a warning and the pool unchanged. -/
theorem pool_delete_diverges_on_present_key_witness :
    poolDelete 7 { pool := [("a", 0)], nextId := 1 } "a" = none ∧
    poolDelete 7 { pool := [("a", 0)], nextId := 1 } "b" =
      some ({ pool := [("a", 0)], nextId := 1 }, true) :=
  ⟨(pool_delete_diverges_on_present_key { pool := [("a", 0)], nextId := 1 } "a").1
      (by decide) 7,
   (pool_delete_diverges_on_present_key { pool := [("a", 0)], nextId := 1 } "b").2.1
      (by decide) 6⟩

/-!
## Top-down phase traversal (`src/uvm/base/uvm_topdown_phase.py`)

`UVMTopdownPhase.traverse(comp, phase, state)` first applies the per-state
action to `comp` itself — guarded by the domain check
`phase_domain == common or phase_domain == comp_domain`, and for
`UVM_PHASE_EXECUTING` by the `build`-done skip — and then loops over
`comp`'s children with `get_first_child`/`get_next_child` (the component's
insertion-order child list), recursing into each.

The component tree is modelled as a mutually inductive rose tree (a
component and its ordered child list); domains by `Nat` with a distinguished
`commonDomain`.  Which `execute` implementation runs for a component (the
`m_phase_imps` override) does not affect the visitation order, so the log
records only the component and the state's action.
-/

mutual
/-- A component: its identity, its domain, its `m_build_done` flag and its
ordered children (insertion order = traversal order). -/
inductive UVMComponent : Type where
  | mk (cid : Nat) (dom : Nat) (buildDone : Bool) (children : CompList)
/-- An insertion-ordered list of child components. -/
inductive CompList : Type where
  | nil : CompList
  | cons (c : UVMComponent) (cs : CompList) : CompList
end

/-- Identity of a component. -/
def UVMComponent.cid : UVMComponent → Nat
  | .mk i _ _ _ => i

/-- Domain of a component (`comp.get_domain()`). -/
def UVMComponent.dom : UVMComponent → Nat
  | .mk _ d _ _ => d

/-- The `m_build_done` flag. -/
def UVMComponent.buildDone : UVMComponent → Bool
  | .mk _ _ b _ => b

/-- Ordered children of a component. -/
def UVMComponent.children : UVMComponent → CompList
  | .mk _ _ _ cs => cs

/-- The domain object `UVMDomain.get_common_domain()` returns. -/
def commonDomain : Nat := 0

/-- The phase handle passed to `traverse`: its name (`phase.get_name()`) and
its domain (`phase.get_domain()`). -/
structure PhaseRec : Type where
  pname : String
  pdomain : Nat

/-- The `state` argument of `traverse`: one of the four handled phase-state
constants, or any other value (which hits the `PH_BADEXEC` fatal branch). -/
inductive PhaseState : Type where
  | started
  | executing
  | readyToEnd
  | ended
  | other
deriving DecidableEq

/-- What `traverse` does to one in-range component in each state. -/
inductive TraverseAction : Type where
  | phaseStarted
  | execute
  | readyToEnd
  | phaseEnded
  | badExec
deriving DecidableEq

/-- The per-state action of the traversal. -/
def stAction : PhaseState → TraverseAction
  | .started => .phaseStarted
  | .executing => .execute
  | .readyToEnd => .readyToEnd
  | .ended => .phaseEnded
  | .other => .badExec

mutual
/-- `UVMTopdownPhase.traverse` (uvm_topdown_phase.py lines 55-108) as the log
of per-component actions it performs, in order: apply the state's action to
`comp` when `phase_domain == common or phase_domain == comp_domain` (for
`EXECUTING`, additionally unless `phase.get_name() == "build"` and
`comp.m_build_done`), then recurse into the children in order. -/
def UVMTopdownPhase.traverse (ph : PhaseRec) (st : PhaseState) :
    UVMComponent → List (Nat × TraverseAction)
  | .mk i d b cs =>
      (if ph.pdomain = commonDomain ∨ ph.pdomain = d then
        match st with
        | .started => [(i, .phaseStarted)]
        | .executing =>
            if ph.pname = "build" ∧ b then [] else [(i, .execute)]
        | .readyToEnd => [(i, .readyToEnd)]
        | .ended => [(i, .phaseEnded)]
        | .other => [(i, .badExec)]
      else []) ++ UVMTopdownPhase.traverseChildren ph st cs
/-- The `while child is not None` loop at the end of `traverse`. -/
def UVMTopdownPhase.traverseChildren (ph : PhaseRec) (st : PhaseState) :
    CompList → List (Nat × TraverseAction)
  | .nil => []
  | .cons c cs =>
      UVMTopdownPhase.traverse ph st c ++ UVMTopdownPhase.traverseChildren ph st cs
end

mutual
/-- The specified visitation order of a top-down stage: the component itself,
then its children's subtrees in insertion order. -/
def preorder : UVMComponent → List Nat
  | .mk i _ _ cs => i :: preorderForest cs
/-- Preorder of a forest, left to right. -/
def preorderForest : CompList → List Nat
  | .nil => []
  | .cons c cs => preorder c ++ preorderForest cs
end

mutual
/-- All components of a tree (the component and everything below it). -/
def subtrees : UVMComponent → List UVMComponent
  | .mk i d b cs => .mk i d b cs :: subtreesForest cs
/-- All components of a forest. -/
def subtreesForest : CompList → List UVMComponent
  | .nil => []
  | .cons c cs => subtrees c ++ subtreesForest cs
end

/-- A component is in range of the phase and not skipped: its domain matches
(or the phase runs in the common domain), and for `EXECUTING` it is not a
build-done component in the `build` phase. -/
def nodeOk (ph : PhaseRec) (st : PhaseState) (c : UVMComponent) : Bool :=
  (ph.pdomain == commonDomain || ph.pdomain == c.dom) &&
    (match st with
     | .executing => !(ph.pname == "build" && c.buildDone)
     | _ => true)

mutual
/-- Every component of the tree is in range and not skipped. -/
def okTree (ph : PhaseRec) (st : PhaseState) : UVMComponent → Bool
  | .mk i d b cs => nodeOk ph st (.mk i d b cs) && okForest ph st cs
/-- Every component of the forest is in range and not skipped. -/
def okForest (ph : PhaseRec) (st : PhaseState) : CompList → Bool
  | .nil => true
  | .cons c cs => okTree ph st c && okForest ph st cs
end

/-- Unfolding equation for `nodeOk` on a constructed component. -/
theorem nodeOk_unfold (ph : PhaseRec) (st : PhaseState) (i d : Nat) (b : Bool)
    (cs : CompList) :
    nodeOk ph st (.mk i d b cs) =
      ((ph.pdomain == commonDomain || ph.pdomain == d) &&
        (match st with
         | PhaseState.executing => !(ph.pname == "build" && b)
         | _ => true)) := rfl

/-- Unfolding equation for `UVMTopdownPhase.traverse` on a constructed
component. -/
theorem traverse_unfold (ph : PhaseRec) (st : PhaseState) (i d : Nat)
    (b : Bool) (cs : CompList) :
    UVMTopdownPhase.traverse ph st (.mk i d b cs) =
      (if ph.pdomain = commonDomain ∨ ph.pdomain = d then
        match st with
        | .started => [(i, .phaseStarted)]
        | .executing =>
            if ph.pname = "build" ∧ b then [] else [(i, .execute)]
        | .readyToEnd => [(i, .readyToEnd)]
        | .ended => [(i, .phaseEnded)]
        | .other => [(i, .badExec)]
      else []) ++ UVMTopdownPhase.traverseChildren ph st cs := rfl

mutual
/-- On a tree of in-range, unskipped components, the traversal applies the
state's action to the components exactly in specified preorder. -/
theorem traverse_eq_preorder (ph : PhaseRec) (st : PhaseState)
    (c : UVMComponent) (h : okTree ph st c = true) :
    UVMTopdownPhase.traverse ph st c =
      (preorder c).map (fun i => (i, stAction st)) := by
  cases c with
  | mk i d b cs =>
      rw [okTree, Bool.and_eq_true] at h
      obtain ⟨hn, hf⟩ := h
      rw [nodeOk_unfold, Bool.and_eq_true] at hn
      obtain ⟨hdom, hskip⟩ := hn
      have hdom' : ph.pdomain = commonDomain ∨ ph.pdomain = d := by
        simp only [Bool.or_eq_true, beq_iff_eq] at hdom
        exact hdom
      rw [traverse_unfold, preorder, if_pos hdom',
        traverseChildren_eq_preorder ph st cs hf]
      cases st with
      | executing =>
          have hskip' : (!(ph.pname == "build" && b)) = true := hskip
          have hsk : ¬(ph.pname = "build" ∧ b) := by
            intro hcontra
            obtain ⟨h1, h2⟩ := hcontra
            rw [h1, h2] at hskip'
            simp at hskip'
          rw [if_neg hsk]
          rfl
      | started => rfl
      | readyToEnd => rfl
      | ended => rfl
      | other => rfl
/-- Forest version of `traverse_eq_preorder`. -/
theorem traverseChildren_eq_preorder (ph : PhaseRec) (st : PhaseState)
    (cs : CompList) (h : okForest ph st cs = true) :
    UVMTopdownPhase.traverseChildren ph st cs =
      (preorderForest cs).map (fun i => (i, stAction st)) := by
  cases cs with
  | nil => rfl
  | cons c rest =>
      rw [okForest, Bool.and_eq_true] at h
      obtain ⟨hc, hrest⟩ := h
      rw [UVMTopdownPhase.traverseChildren, preorderForest, List.map_append,
        traverse_eq_preorder ph st c hc,
        traverseChildren_eq_preorder ph st rest hrest]
end

mutual
/-- Each subtree of a tree occupies a contiguous segment of the preorder. -/
theorem preorder_segment (c x : UVMComponent) (h : x ∈ subtrees c) :
    ∃ A B, preorder c = A ++ preorder x ++ B := by
  cases c with
  | mk i d b cs =>
      rw [subtrees] at h
      rcases List.mem_cons.1 h with h1 | h1
      · exact ⟨[], [], by rw [h1]; simp⟩
      · obtain ⟨A, B, hAB⟩ := preorderForest_segment cs x h1
        exact ⟨i :: A, B, by rw [preorder, hAB]; simp⟩
/-- Forest version of `preorder_segment`. -/
theorem preorderForest_segment (cs : CompList) (x : UVMComponent)
    (h : x ∈ subtreesForest cs) :
    ∃ A B, preorderForest cs = A ++ preorder x ++ B := by
  cases cs with
  | nil => rw [subtreesForest] at h; cases h
  | cons c rest =>
      rw [subtreesForest] at h
      rcases List.mem_append.1 h with h1 | h1
      · obtain ⟨A, B, hAB⟩ := preorder_segment c x h1
        exact ⟨A, B ++ preorderForest rest, by rw [preorderForest, hAB]; simp⟩
      · obtain ⟨A, B, hAB⟩ := preorderForest_segment rest x h1
        exact ⟨preorder c ++ A, B, by rw [preorderForest, hAB]; simp⟩
end

mutual
/-- The identity of every component of a tree occurs in its preorder. -/
theorem cid_mem_preorder (t x : UVMComponent) (h : x ∈ subtrees t) :
    x.cid ∈ preorder t := by
  cases t with
  | mk i d b cs =>
      rw [subtrees] at h
      rw [preorder]
      rcases List.mem_cons.1 h with h1 | h1
      · rw [h1]; exact List.mem_cons_self _ _
      · exact List.mem_cons_of_mem _ (cid_mem_preorderForest cs x h1)
/-- Forest version of `cid_mem_preorder`. -/
theorem cid_mem_preorderForest (cs : CompList) (x : UVMComponent)
    (h : x ∈ subtreesForest cs) : x.cid ∈ preorderForest cs := by
  cases cs with
  | nil => rw [subtreesForest] at h; cases h
  | cons c rest =>
      rw [subtreesForest] at h
      rw [preorderForest]
      rcases List.mem_append.1 h with h1 | h1
      · exact List.mem_append_left _ (cid_mem_preorder c x h1)
      · exact List.mem_append_right _ (cid_mem_preorderForest rest x h1)
end

/-- Claim C8: on a component tree all of whose components are in the phase's
range (and not skipped by the `build`-done guard), the top-down traversal
applies the per-state action in exact preorder — each component before any of
its descendants, children in insertion order: the action log equals the
preorder image, and for any component `x` of the tree and any `y` strictly
below `x`, the preorder lists `x` at a position with `y` somewhere after
it. -/
theorem UVMTopdownPhase_traverse_topdown_order
    (ph : PhaseRec) (st : PhaseState) (c x y : UVMComponent)
    (hok : okTree ph st c = true)
    (hx : x ∈ subtrees c) (hy : y ∈ subtreesForest x.children) :
    UVMTopdownPhase.traverse ph st c =
      (preorder c).map (fun i => (i, stAction st)) ∧
    ∃ l1 l2, preorder c = l1 ++ x.cid :: l2 ∧ y.cid ∈ l2 := by
  refine ⟨traverse_eq_preorder ph st c hok, ?_⟩
  obtain ⟨A, B, hAB⟩ := preorder_segment c x hx
  have hmem : y.cid ∈ preorderForest x.children :=
    cid_mem_preorderForest x.children y hy
  refine ⟨A, preorderForest x.children ++ B, ?_, by simp [hmem]⟩
  rw [hAB]
  have hx' : preorder x = x.cid :: preorderForest x.children := by
    cases x with
    | mk i d b cs => rw [preorder]; rfl
  rw [hx']
  simp

/-- A three-component, two-level child of the witness tree. -/
def compA1 : UVMComponent := .mk 4 1 false .nil

/-- First child of the witness tree root, with one child of its own. -/
def compA : UVMComponent := .mk 2 1 false (.cons compA1 .nil)

/-- Second child of the witness tree root. -/
def compB : UVMComponent := .mk 3 1 false .nil

/-- Root of the witness tree. -/
def compRoot : UVMComponent := .mk 1 1 false (.cons compA (.cons compB .nil))

/-- The witness phase: named "run", scheduled in the common domain. -/
def phRun : PhaseRec := { pname := "run", pdomain := commonDomain }

/-- Witness for `UVMTopdownPhase_traverse_topdown_order`: the three-level
tree root → (A → A1), B in the `run` phase's `STARTED` state, with `x` the
root and `y` its first child. -/
theorem UVMTopdownPhase_traverse_topdown_order_witness :
    UVMTopdownPhase.traverse phRun .started compRoot =
      (preorder compRoot).map (fun i => (i, stAction .started)) ∧
    ∃ l1 l2, preorder compRoot = l1 ++ compRoot.cid :: l2 ∧ compA.cid ∈ l2 :=
  UVMTopdownPhase_traverse_topdown_order phRun .started compRoot compRoot compA
    (by rfl)
    (by rw [compRoot, subtrees]; exact List.mem_cons_self _ _)
    (by
      rw [compRoot, UVMComponent.children, subtreesForest, compA, subtrees]
      exact List.mem_append_left _ (List.mem_cons_self _ _))
